import Mathlib

/-!
Verification of the Cropter mission-control and farm-mapping frontend.

Shallow embedding of the state and event handlers of
`copter-vision-hub/src/pages/MissionControl.tsx` (drone mission control page)
and of the farm-mapping page (`FarmMapping`, boundary / obstacle / no-fly-zone
capture and JSON export).

Modelling conventions:
* React `useState` hooks become fields of an explicit state record; an event
  handler (click, key event, websocket message, timer callback) becomes one
  case of a `step` function.  JavaScript is single threaded, so processing of
  one event handler — including the React state commit and the `useEffect`
  cleanup it triggers — is modelled as one atomic step.
* `ws.send` calls are logged in a `sent : List Cmd` field.
* JavaScript numbers appearing in the handlers are modelled as `Int` / `ℚ`.
* Library functions that involve floating-point trigonometry
  (`Math.PI`, `Math.cos`, Leaflet's `LatLng.distanceTo`) are taken as
  parameters (`pi : ℚ`, `cosQ : ℚ → ℚ`, `dist : LatLngQ → LatLngQ → ℚ`);
  all theorems hold for every choice of these parameters.
-/

namespace Cropter

/-! ## Outbound commands (`sendCommand(action, params)` / `ws.send`) -/

/-- A message sent on the control websocket by `sendCommand` (an `action`
string plus the optional numeric parameters used by the manual controls). -/
structure Cmd where
  action : String
  distance : Option Int
  degrees : Option Int
deriving DecidableEq, Repr

/-! ## Inbound messages and UI data (`Telemetry`, `MissionStatus`) -/

/-- The `Telemetry` interface of `MissionControl.tsx`. -/
structure Telem where
  battery : Int
  height : Int
  flightTime : Int
  temperature : Option (Int × Int)
  position : Option (Int × Int × Int)
  distanceTraveled : Option Int
deriving DecidableEq, Repr

/-- The `MissionStatus` interface of `MissionControl.tsx`. -/
structure MStatus where
  status : String
  message : String
  waypoint : Option Int
  totalWaypoints : Option Int
  progress : Option Int
  battery : Option Int
  distanceTraveled : Option Int
deriving DecidableEq, Repr

/-- Outcome of `JSON.parse` on a websocket message, as consumed by
`websocket.onmessage`: a parse failure (`malformed`), a `video_frame`
message, a `mission_status` message, or a parsed object whose `type`
matches no branch. -/
inductive InMsg where
  | malformed
  | videoFrame (data : String) (telemetry : Option Telem)
      (missionActive : Bool) (waypoint totalWaypoints : Option Int)
  | missionStatus (st : MStatus)
  | unknownType
deriving DecidableEq, Repr

/-! ## MissionControl component state -/

/-- The `useState`/`useRef` hooks of the `MissionControl` component, plus the
log `sent` of commands pushed to the websocket. `wsOpen` models `ws !== null`
(the hook sets `ws` on open and nulls it on close, together with
`connected`).  `intervalRefSet` models `controlInterval.current !== null` and
`intervalScheduled` models "a `setInterval` timer is actually live" — the
two differ because the keyboard effect's cleanup calls `clearInterval`
without nulling the ref. -/
structure MCState where
  wsOpen : Bool
  connected : Bool
  droneConnected : Bool
  connectTimerPending : Bool
  streaming : Bool
  videoFrame : String
  telemetry : Option Telem
  missionStatus : Option MStatus
  hasFlightPlan : Bool
  manualMode : Bool
  keysPressed : List String
  intervalRefSet : Bool
  intervalScheduled : Bool
  sent : List Cmd
deriving DecidableEq, Repr

/-- Initial hook values of the component. -/
def initMC : MCState :=
  { wsOpen := false, connected := false, droneConnected := false
    connectTimerPending := false, streaming := false, videoFrame := ""
    telemetry := none, missionStatus := none, hasFlightPlan := false
    manualMode := false, keysPressed := [], intervalRefSet := false
    intervalScheduled := false, sent := [] }

/-- Events delivered to the component: websocket lifecycle and messages,
button clicks, the `connectDrone` 2-second timer firing, manual-mode toggle,
keyboard events, and the 200 ms `setInterval` tick. -/
inductive Ev where
  | wsOpened
  | wsClosed
  | recv (m : InMsg)
  | clickConnect
  | connectTimerFire
  | clickStartStream
  | clickTakeoff
  | planGenerated
  | clickExecuteMission
  | clickEmergencyStop
  | toggleManualMode
  | keyDown (k : String)
  | keyUp (k : String)
  | tick
deriving DecidableEq, Repr

/-- The string interpolated into the `mission_active` status message
(`Waypoint ${data.waypoint}/${data.total_waypoints}`); an absent field
renders as `undefined` in JavaScript. -/
def optIntStr : Option Int → String
  | some n => toString n
  | none => "undefined"

/-- Message text built by the `video_frame` branch when `mission_active`. -/
def waypointMsgText (wp tw : Option Int) : String :=
  "Waypoint " ++ optIntStr wp ++ "/" ++ optIntStr tw

/-- Handler `websocket.onmessage`: parse failures are caught (`console.error` only),
`video_frame` updates the frame, optionally the telemetry and — when
`mission_active` — the mission status, `mission_status` replaces the status;
any other parsed object matches no branch. -/
def handleMessage (s : MCState) (m : InMsg) : MCState :=
  match m with
  | .malformed => s
  | .videoFrame data telem missionActive wp tw =>
      let s1 := { s with videoFrame := data }
      let s2 := match telem with
        | some t => { s1 with telemetry := some t }
        | none => s1
      if missionActive then
        let st : MStatus := ⟨"executing", waypointMsgText wp tw, wp, tw, none, none, none⟩
        { s2 with missionStatus := some st }
      else s2
  | .missionStatus st => { s with missionStatus := some st }
  | .unknownType => s

/-- The keyboard effect of `MissionControl` is active (its listeners are
registered) exactly when `manualMode && droneConnected`. -/
def mcActive (s : MCState) : Bool :=
  s.manualMode && s.droneConnected

/-- React effect cleanup for the keyboard effect: when the effect was active
and its dependencies change so that it no longer is, the cleanup runs
`clearInterval(controlInterval.current)` — note that it does *not* null the
ref. -/
def applyCleanup (old new : MCState) : MCState :=
  if mcActive old && !(mcActive new) then { new with intervalScheduled := false }
  else new

/-- Function `sendManualCommands`: the list of commands produced from the currently
held keys, in source order (WASD movement, arrow altitude/rotation, space =
land).  One `sendCommand` call is issued per held key. -/
def manualCommands (keys : List String) : List Cmd :=
  (if keys.contains "w" then [⟨"move_forward", some 20, none⟩] else []) ++
  (if keys.contains "s" then [⟨"move_back", some 20, none⟩] else []) ++
  (if keys.contains "a" then [⟨"move_left", some 20, none⟩] else []) ++
  (if keys.contains "d" then [⟨"move_right", some 20, none⟩] else []) ++
  (if keys.contains "arrowup" then [⟨"move_up", some 20, none⟩] else []) ++
  (if keys.contains "arrowdown" then [⟨"move_down", some 20, none⟩] else []) ++
  (if keys.contains "arrowleft" then [⟨"rotate_ccw", none, some 15⟩] else []) ++
  (if keys.contains "arrowright" then [⟨"rotate_cw", none, some 15⟩] else []) ++
  (if keys.contains " " then [⟨"land", none, none⟩] else [])

/-- Models `e.key.toLowerCase()`.  (`String.toLower` itself is defined by
well-founded recursion and does not reduce definitionally, so the same map
is written structurally over the character list.) -/
def lowerKey (k : String) : String :=
  ⟨k.data.map Char.toLower⟩

/-- The `setInterval(sendManualCommands, 200)` callback: early return when
`!ws || !droneConnected`; otherwise send one command per held key, and when
space is held additionally leave manual mode (`setManualMode(false)` next to
the `land` command). -/
def sendManualStep (s : MCState) : MCState :=
  if !s.wsOpen || !s.droneConnected then s
  else if s.keysPressed.contains " " then
    { s with sent := s.sent ++ manualCommands s.keysPressed, manualMode := false }
  else
    { s with sent := s.sent ++ manualCommands s.keysPressed }

/-- One event-handler execution, before the React effect cleanup. -/
def rawStepMC (s : MCState) (e : Ev) : MCState :=
  match e with
  | .wsOpened => { s with wsOpen := true, connected := true }
  | .wsClosed => { s with wsOpen := false, connected := false }
  | .recv m => if s.wsOpen then handleMessage s m else s
  | .clickConnect =>
      if s.wsOpen then
        { s with sent := s.sent ++ [⟨"connect", none, none⟩]
                 connectTimerPending := true }
      else s
  | .connectTimerFire =>
      if s.connectTimerPending then
        { s with droneConnected := true, connectTimerPending := false }
      else s
  | .clickStartStream =>
      if s.wsOpen then
        { s with sent := s.sent ++ [⟨"start_stream", none, none⟩], streaming := true }
      else s
  | .clickTakeoff =>
      if s.wsOpen then { s with sent := s.sent ++ [⟨"takeoff", none, none⟩] } else s
  | .planGenerated => { s with hasFlightPlan := true }
  | .clickExecuteMission =>
      if s.wsOpen && s.hasFlightPlan then
        { s with sent := s.sent ++ [⟨"execute_mission", none, none⟩] }
      else s
  | .clickEmergencyStop =>
      if s.wsOpen then
        { s with sent := s.sent ++ [⟨"emergency_stop", none, none⟩], manualMode := false }
      else s
  | .toggleManualMode =>
      if s.droneConnected then { s with manualMode := !s.manualMode } else s
  | .keyDown k =>
      if mcActive s then
        if !s.intervalRefSet then
          { s with keysPressed := s.keysPressed.insert (lowerKey k)
                   intervalRefSet := true, intervalScheduled := true }
        else { s with keysPressed := s.keysPressed.insert (lowerKey k) }
      else s
  | .keyUp k =>
      if mcActive s then
        if (s.keysPressed.erase (lowerKey k)).isEmpty && s.intervalRefSet then
          { s with keysPressed := s.keysPressed.erase (lowerKey k)
                   intervalScheduled := false, intervalRefSet := false }
        else { s with keysPressed := s.keysPressed.erase (lowerKey k) }
      else s
  | .tick => if s.intervalScheduled then sendManualStep s else s

/-- One atomic event step: the handler followed by the keyboard effect
cleanup it may trigger. -/
def stepMC (s : MCState) (e : Ev) : MCState :=
  applyCleanup s (rawStepMC s e)

/-- A sequence of events processed in order. -/
def runMC (s : MCState) (evs : List Ev) : MCState :=
  evs.foldl stepMC s

/-! ## The `execute_mission` websocket payload

`executeMission` serializes
`{ action: "execute_mission", mission_data: { mission_id, field_id,
waypoints, altitude } }`.  To reason about the *shape* of this message we
model the JSON value it stringifies to.  `JSON.stringify` omits properties
whose value is `undefined`, so `fieldMap?.field_id` and
`flightPlan.waypoints` enter the object only when present. -/

/-- A JSON value. -/
inductive Json where
  | null
  | str (s : String)
  | num (n : Int)
  | bool (b : Bool)
  | arr (elems : List Json)
  | obj (fields : List (String × Json))

/-- Top-level keys of a JSON object (empty for non-objects). -/
def jsonObjKeys : Json → List String
  | .obj fs => fs.map Prod.fst
  | _ => []

/-- Look up a key in a JSON object. -/
def jsonLookup (j : Json) (k : String) : Option Json :=
  match j with
  | .obj fs => (fs.find? (fun f => f.1 == k)).map Prod.snd
  | _ => none

/-- The message built by `executeMission` (after the `!ws || !flightPlan`
guard): `mission_id` is `"mission_" + Date.now()`, `field_id` is
`fieldMap?.field_id` (omitted by `JSON.stringify` when undefined),
`waypoints` is `flightPlan.waypoints` passed through unchanged (omitted when
undefined), `altitude` is the slider value in cm. -/
def executeMissionMsg (nowMs : Int) (fieldId : Option Json)
    (waypoints : Option Json) (altitudeCm : Int) : Json :=
  Json.obj
    [("action", Json.str "execute_mission"),
     ("mission_data", Json.obj
       ([("mission_id", Json.str ("mission_" ++ toString nowMs))] ++
        (match fieldId with | some v => [("field_id", v)] | none => []) ++
        (match waypoints with | some v => [("waypoints", v)] | none => []) ++
        [("altitude", Json.num altitudeCm)]))]

/-! ## The flight-plan battery warning (`MissionControl` render) -/

/-- Which battery alert the flight-plan panel renders. -/
inductive BatteryWarning where
  | impossible
  | highUsage
  | noWarning
deriving DecidableEq, Repr

/-- The alert chosen by the render expression
`flightPlan.estimated_battery_pct > 100 ? (Mission Impossible alert)
: flightPlan.estimated_battery_pct > 80 && (High Battery Usage alert)`. -/
def batteryWarning (pct : ℚ) : BatteryWarning :=
  if pct > 100 then .impossible
  else if pct > 80 then .highUsage
  else .noWarning

/-! ## FarmMapping (farm-mapping page): geometry helpers -/

/-- A Leaflet `LatLng`, over `ℚ`. -/
structure LatLngQ where
  lat : ℚ
  lng : ℚ
deriving DecidableEq, Repr

/-- Leaflet `LatLngBounds(a, b).getSouthWest()`. -/
def southWest (a b : LatLngQ) : LatLngQ :=
  ⟨min a.lat b.lat, min a.lng b.lng⟩

/-- Leaflet `LatLngBounds(a, b).getNorthEast()`. -/
def northEast (a b : LatLngQ) : LatLngQ :=
  ⟨max a.lat b.lat, max a.lng b.lng⟩

/-- Leaflet `LatLngBounds(a, b).contains(p)` (inclusive on the border). -/
def BoundsContains (a b p : LatLngQ) : Prop :=
  (southWest a b).lat ≤ p.lat ∧ p.lat ≤ (northEast a b).lat ∧
  (southWest a b).lng ≤ p.lng ∧ p.lng ≤ (northEast a b).lng

instance (a b p : LatLngQ) : Decidable (BoundsContains a b p) := by
  unfold BoundsContains; infer_instance

/-- The rectangle corners stored for a captured region, in source order
`[sw, se, ne, nw, sw]` (each stored as a `[lat, lng]` pair). -/
def rectBoundary (p q : LatLngQ) : List LatLngQ :=
  let sw := southWest p q
  let ne := northEast p q
  let nw : LatLngQ := ⟨ne.lat, sw.lng⟩
  let se : LatLngQ := ⟨sw.lat, ne.lng⟩
  [sw, se, ne, nw, sw]

/-- Area `width * length` of the rectangle spanned by two clicked corners:
`width = sw.distanceTo(se)`, `length = sw.distanceTo(nw)` for the geographic
distance function `dist` (Leaflet's `LatLng.distanceTo`, a library function
taken as a parameter). -/
def rectArea (dist : LatLngQ → LatLngQ → ℚ) (p q : LatLngQ) : ℚ :=
  let sw := southWest p q
  let ne := northEast p q
  let nw : LatLngQ := ⟨ne.lat, sw.lng⟩
  let se : LatLngQ := ⟨sw.lat, ne.lng⟩
  dist sw se * dist sw nw

/-! ## FarmMapping state -/

/-- The `Obstacle` interface (`crypto.randomUUID()` ids modelled by a
counter). -/
structure ObstacleQ where
  id : Nat
  boundary : List LatLngQ
  area : ℚ
deriving DecidableEq, Repr

/-- The `NoFlyZone` interface. -/
structure NoFlyZoneQ where
  id : Nat
  boundary : List LatLngQ
  area : ℚ
  reason : Option String
deriving DecidableEq, Repr

/-- The `mode` state: `"base" | "obstacle" | "nofly"`. -/
inductive FMode where
  | base
  | obstacle
  | nofly
deriving DecidableEq, Repr

/-- The `nextPin` state: `"a" | "b"`. -/
inductive PinSel where
  | a
  | b
deriving DecidableEq, Repr

/-- The `metrics` state record. -/
structure MetricsQ where
  width : ℚ
  length : ℚ
  baseArea : ℚ
  netArea : ℚ
deriving DecidableEq, Repr

/-- The `useState` hooks of the `FarmMapping` component. -/
structure FarmState where
  pinA : LatLngQ
  pinB : LatLngQ
  mode : FMode
  nextPin : PinSel
  obstacles : List ObstacleQ
  noFlyZones : List NoFlyZoneQ
  obstacleStart : Option LatLngQ
  noFlyStart : Option LatLngQ
  metrics : MetricsQ
  nextId : Nat
deriving DecidableEq, Repr

/-- Function `calculateMetrics`: base rectangle width/length from the pin bounds,
base area, and net area = `Math.max(baseArea - obstacleArea - noFlyArea, 0)`
with the obstacle and no-fly areas summed by `reduce`. -/
def calculateMetrics (dist : LatLngQ → LatLngQ → ℚ) (s : FarmState) : MetricsQ :=
  let sw := southWest s.pinA s.pinB
  let ne := northEast s.pinA s.pinB
  let nw : LatLngQ := ⟨ne.lat, sw.lng⟩
  let se : LatLngQ := ⟨sw.lat, ne.lng⟩
  let width := dist sw se
  let length := dist sw nw
  let baseArea := width * length
  let obstacleArea := s.obstacles.foldl (fun sum obs => sum + obs.area) 0
  let noFlyArea := s.noFlyZones.foldl (fun sum nfz => sum + nfz.area) 0
  let netArea := max (baseArea - obstacleArea - noFlyArea) 0
  ⟨width, length, baseArea, netArea⟩

/-- Events on the farm-mapping page.  Buttons only exist in the modes that
render them: pins are draggable and `resetPins` / `lockBoundary` are shown
only in base mode; the mode-switch, restart and export buttons only outside
base mode. -/
inductive FEv where
  | click (p : LatLngQ)
  | dragPinA (p : LatLngQ)
  | dragPinB (p : LatLngQ)
  | lockBoundary
  | selectObstacleMode
  | selectNoflyMode
  | restartMapping
  | resetPins
  | removeObstacle (i : Nat)
  | removeNoFly (i : Nat)
deriving DecidableEq, Repr

/-- Initial pin A (`LatLng(36.7367, -119.7851)`). -/
def defaultPinA : LatLngQ := ⟨36.7367, -119.7851⟩

/-- Initial pin B (`LatLng(36.7386, -119.7823)`). -/
def defaultPinB : LatLngQ := ⟨36.7386, -119.7823⟩

/-- The `MapClickHandler` click handler. -/
def clickFM (dist : LatLngQ → LatLngQ → ℚ) (s : FarmState) (p : LatLngQ) : FarmState :=
  match s.mode with
  | .base =>
      if s.nextPin = .a then { s with pinA := p, nextPin := .b }
      else { s with pinB := p, nextPin := .a }
  | .obstacle =>
      if BoundsContains s.pinA s.pinB p then
        match s.obstacleStart with
        | none => { s with obstacleStart := some p }
        | some st =>
            if rectArea dist st p > 1 then
              { s with obstacles :=
                  s.obstacles ++ [⟨s.nextId, rectBoundary st p, rectArea dist st p⟩]
                       nextId := s.nextId + 1, obstacleStart := none }
            else { s with obstacleStart := none }
      else s
  | .nofly =>
      if BoundsContains s.pinA s.pinB p then
        match s.noFlyStart with
        | none => { s with noFlyStart := some p }
        | some st =>
            if rectArea dist st p > 1 then
              { s with noFlyZones :=
                  s.noFlyZones ++ [⟨s.nextId, rectBoundary st p, rectArea dist st p,
                    some "Safety restriction"⟩]
                       nextId := s.nextId + 1, noFlyStart := none }
            else { s with noFlyStart := none }
      else s

/-- One event handler of the farm-mapping page, before the metrics effect. -/
def rawStepFM (dist : LatLngQ → LatLngQ → ℚ) (s : FarmState) (e : FEv) : FarmState :=
  match e with
  | .click p => clickFM dist s p
  | .dragPinA p => if s.mode = .base then { s with pinA := p } else s
  | .dragPinB p => if s.mode = .base then { s with pinB := p } else s
  | .lockBoundary => if s.mode = .base then { s with mode := .obstacle } else s
  | .selectObstacleMode => if s.mode ≠ .base then { s with mode := .obstacle } else s
  | .selectNoflyMode => if s.mode ≠ .base then { s with mode := .nofly } else s
  | .restartMapping =>
      if s.mode ≠ .base then
        { s with mode := .base, obstacles := [], noFlyZones := []
                 obstacleStart := none, noFlyStart := none }
      else s
  | .resetPins =>
      if s.mode = .base then
        { s with pinA := defaultPinA, pinB := defaultPinB, nextPin := .a }
      else s
  | .removeObstacle i => { s with obstacles := s.obstacles.filter (fun o => o.id ≠ i) }
  | .removeNoFly i => { s with noFlyZones := s.noFlyZones.filter (fun z => z.id ≠ i) }

/-- One atomic event step: the handler followed by the
`useEffect(calculateMetrics, [pinA, pinB, obstacles, noFlyZones])` re-run. -/
def stepFM (dist : LatLngQ → LatLngQ → ℚ) (s : FarmState) (e : FEv) : FarmState :=
  { rawStepFM dist s e with metrics := calculateMetrics dist (rawStepFM dist s e) }

/-- The mount state of the page (initial hooks, then the metrics effect). -/
def initFM (dist : LatLngQ → LatLngQ → ℚ) : FarmState :=
  let s0 : FarmState :=
    { pinA := defaultPinA, pinB := defaultPinB, mode := .base, nextPin := .a
      obstacles := [], noFlyZones := [], obstacleStart := none, noFlyStart := none
      metrics := ⟨0, 0, 0, 0⟩, nextId := 0 }
  { s0 with metrics := calculateMetrics dist s0 }

/-- A sequence of farm-mapping events processed in order. -/
def runFM (dist : LatLngQ → LatLngQ → ℚ) (s : FarmState) (evs : List FEv) : FarmState :=
  evs.foldl (stepFM dist) s

/-- States the farm-mapping page can actually be in. -/
def ReachableFM (dist : LatLngQ → LatLngQ → ℚ) (s : FarmState) : Prop :=
  ∃ evs, runFM dist (initFM dist) evs = s

/-! ## FarmMapping JSON export (`exportJSON` / `latLngToMeters`) -/

/-- Models `parseFloat(x.toFixed(2))`: rounding to 2 decimal places. -/
def round2 (x : ℚ) : ℚ := (round (x * 100) : ℤ) / 100

/-- Models `parseFloat(x.toFixed(6))`: rounding to 6 decimal places. -/
def round6 (x : ℚ) : ℚ := (round (x * 1000000) : ℤ) / 1000000

/-- Function `latLngToMeters(latLng, origin)`: equirectangular projection of a
geographic point to meters relative to `origin`.  `Math.PI` and `Math.cos`
are modelled by the parameters `pi` and `cosQ`; every property proved below
holds for any values of these parameters. -/
def latLngToMeters (pi : ℚ) (cosQ : ℚ → ℚ) (latLng origin : LatLngQ) : ℚ × ℚ :=
  let R : ℚ := 6371000
  let lat1 := origin.lat * pi / 180
  let lat2 := latLng.lat * pi / 180
  let deltaLng := (latLng.lng - origin.lng) * pi / 180
  let deltaLat := (latLng.lat - origin.lat) * pi / 180
  let x := R * deltaLng * cosQ ((lat1 + lat2) / 2)
  let y := R * deltaLat
  (round2 x, round2 y)

/-- One exported `obstacles` / `no_fly_zones` entry. -/
structure RegionExport where
  type : String
  boundary : List (ℚ × ℚ)
  reason : Option String
deriving DecidableEq, Repr

/-- The exported field-map JSON (`reference_point` flattened into
`refLat` / `refLon`). -/
structure FieldExport where
  fieldId : String
  name : String
  boundary : List (ℚ × ℚ)
  obstacles : List RegionExport
  noFlyZones : List RegionExport
  refLat : ℚ
  refLon : ℚ
deriving DecidableEq, Repr

/-- Models `nfz.reason || "Safety restriction"` (JavaScript `||`: an absent or
empty-string reason falls back to the default). -/
def reasonOrDefault : Option String → String
  | some r => if r = "" then "Safety restriction" else r
  | none => "Safety restriction"

/-- Function `exportJSON`: the JSON object written to the downloaded file.  The
timestamp-derived `field_id` is passed in as `fieldId`. -/
def exportJSONData (pi : ℚ) (cosQ : ℚ → ℚ) (s : FarmState) (fieldId : String) :
    FieldExport :=
  let sw := southWest s.pinA s.pinB
  let ne := northEast s.pinA s.pinB
  let nw : LatLngQ := ⟨ne.lat, sw.lng⟩
  let se : LatLngQ := ⟨sw.lat, ne.lng⟩
  let origin := sw
  { fieldId := fieldId
    name := "Farm Field from Phase 1 Mapping"
    boundary :=
      [(0, 0), latLngToMeters pi cosQ se origin, latLngToMeters pi cosQ ne origin,
       latLngToMeters pi cosQ nw origin, (0, 0)]
    obstacles := s.obstacles.map (fun obs =>
      ⟨"obstacle", obs.boundary.map (fun q => latLngToMeters pi cosQ q origin), none⟩)
    noFlyZones := s.noFlyZones.map (fun nfz =>
      ⟨"no_fly_zone", nfz.boundary.map (fun q => latLngToMeters pi cosQ q origin),
       some (reasonOrDefault nfz.reason)⟩)
    refLat := round6 origin.lat
    refLon := round6 origin.lng }

/-! ## Auxiliary predicates used by the theorems -/

/-- Whether an event is an incoming websocket message. -/
def isRecvEv : Ev → Bool
  | .recv _ => true
  | _ => false

/-- Whether an event is a key press. -/
def isKeyDownEv : Ev → Bool
  | .keyDown _ => true
  | _ => false

/-- Whether a command is one of the manual movement / rotation commands. -/
def isMotionCmd (c : Cmd) : Bool :=
  ["move_forward", "move_back", "move_left", "move_right",
   "move_up", "move_down", "rotate_ccw", "rotate_cw"].contains c.action

/-- The movement / rotation commands a state has pushed to the link. -/
def motionSent (s : MCState) : List Cmd :=
  s.sent.filter isMotionCmd

/-- Invariant of the keyboard-control effect: a live sampling interval
implies manual mode is on, the drone is connected and the interval ref is
set. -/
def InvMC (s : MCState) : Prop :=
  s.intervalScheduled = true →
    (s.manualMode = true ∧ s.droneConnected = true ∧ s.intervalRefSet = true)

instance (s : MCState) : Decidable (InvMC s) :=
  inferInstanceAs (Decidable (s.intervalScheduled = true →
    (s.manualMode = true ∧ s.droneConnected = true ∧ s.intervalRefSet = true)))

/-- The key-to-command table of `sendManualCommands`, in source order. -/
def manualKeyTable : List (String × Cmd) :=
  [("w", ⟨"move_forward", some 20, none⟩),
   ("s", ⟨"move_back", some 20, none⟩),
   ("a", ⟨"move_left", some 20, none⟩),
   ("d", ⟨"move_right", some 20, none⟩),
   ("arrowup", ⟨"move_up", some 20, none⟩),
   ("arrowdown", ⟨"move_down", some 20, none⟩),
   ("arrowleft", ⟨"rotate_ccw", none, some 15⟩),
   ("arrowright", ⟨"rotate_cw", none, some 15⟩),
   (" ", ⟨"land", none, none⟩)]

/-- Containment of an optional pending first corner in the pin bounds. -/
def OptInBounds (a b : LatLngQ) : Option LatLngQ → Prop
  | some st => BoundsContains a b st
  | none => True

instance (a b : LatLngQ) (o : Option LatLngQ) : Decidable (OptInBounds a b o) :=
  match o with
  | some st => inferInstanceAs (Decidable (BoundsContains a b st))
  | none => inferInstanceAs (Decidable True)

/-- Invariant of the farm-mapping page: every stored region lies inside the
pin rectangle and is a closed polygon, pending first corners lie inside the
rectangle, and base mode implies no captured regions. -/
def FInvCore (s : FarmState) : Prop :=
  (∀ o ∈ s.obstacles, ∀ q ∈ o.boundary, BoundsContains s.pinA s.pinB q) ∧
  (∀ z ∈ s.noFlyZones, ∀ q ∈ z.boundary, BoundsContains s.pinA s.pinB q) ∧
  OptInBounds s.pinA s.pinB s.obstacleStart ∧
  OptInBounds s.pinA s.pinB s.noFlyStart ∧
  (s.mode = .base → s.obstacles = [] ∧ s.noFlyZones = [] ∧
    s.obstacleStart = none ∧ s.noFlyStart = none) ∧
  (∀ o ∈ s.obstacles, o.boundary.head? = o.boundary.getLast?) ∧
  (∀ z ∈ s.noFlyZones, z.boundary.head? = z.boundary.getLast?)

/-- Invariant `FInvCore` together with metrics consistency (the metrics effect has
run). -/
def FInv (dist : LatLngQ → LatLngQ → ℚ) (s : FarmState) : Prop :=
  FInvCore s ∧ s.metrics = calculateMetrics dist s

/-! ## Concrete inputs used by counterexamples and witnesses -/

/-- Connect click followed by the 2-second timer, with no incoming message. -/
def c1Trace : List Ev := [Ev.wsOpened, Ev.clickConnect, Ev.connectTimerFire]

/-- Hold `w` and `s` together in manual mode. -/
def c3Trace : List Ev :=
  [Ev.wsOpened, Ev.clickConnect, Ev.connectTimerFire, Ev.toggleManualMode,
   Ev.keyDown "w", Ev.keyDown "s"]

/-- Manual mode with `w` held and one sampling tick already fired. -/
def c4State : MCState :=
  runMC initMC [Ev.wsOpened, Ev.clickConnect, Ev.connectTimerFire,
    Ev.toggleManualMode, Ev.keyDown "w", Ev.tick]

/-- A concrete stand-in for Leaflet's geographic distance (any function
works for the theorems; this one is computable so witnesses can be checked
by evaluation). -/
def taxiDist (p q : LatLngQ) : ℚ :=
  100000 * (|p.lat - q.lat| + |p.lng - q.lng|)

/-- Lock the boundary, then click two opposite corners inside it. -/
def c9Events : List FEv :=
  [FEv.lockBoundary, FEv.click ⟨36.737, -119.785⟩, FEv.click ⟨36.738, -119.784⟩]

/-- The farm-mapping state after `c9Events`: one captured obstacle. -/
def c9State : FarmState := runFM taxiDist (initFM taxiDist) c9Events

/-- Obstacle mode with a pending first corner at `(1, 1)`. -/
def c8Base : FarmState :=
  { pinA := ⟨0, 0⟩, pinB := ⟨10, 10⟩, mode := .obstacle, nextPin := .a
    obstacles := [], noFlyZones := [], obstacleStart := some ⟨1, 1⟩, noFlyStart := none
    metrics := ⟨0, 0, 0, 0⟩, nextId := 0 }

/-- No-fly mode with a pending first corner at `(1, 1)`. -/
def c8NoflyBase : FarmState :=
  { c8Base with mode := .nofly, obstacleStart := none, noFlyStart := some ⟨1, 1⟩ }

/-! ## Helper lemmas -/

theorem handleMessage_preserves (s : MCState) (m : InMsg) :
    (handleMessage s m).droneConnected = s.droneConnected ∧
    (handleMessage s m).manualMode = s.manualMode ∧
    (handleMessage s m).intervalScheduled = s.intervalScheduled ∧
    (handleMessage s m).intervalRefSet = s.intervalRefSet ∧
    (handleMessage s m).keysPressed = s.keysPressed ∧
    (handleMessage s m).sent = s.sent ∧
    (handleMessage s m).wsOpen = s.wsOpen ∧
    (handleMessage s m).connectTimerPending = s.connectTimerPending := by
  cases m with
  | malformed => exact ⟨rfl, rfl, rfl, rfl, rfl, rfl, rfl, rfl⟩
  | videoFrame d t ma wp tw =>
      cases t <;> cases ma <;> exact ⟨rfl, rfl, rfl, rfl, rfl, rfl, rfl, rfl⟩
  | missionStatus st => exact ⟨rfl, rfl, rfl, rfl, rfl, rfl, rfl, rfl⟩
  | unknownType => exact ⟨rfl, rfl, rfl, rfl, rfl, rfl, rfl, rfl⟩

theorem applyCleanup_droneConnected (old new : MCState) :
    (applyCleanup old new).droneConnected = new.droneConnected := by
  unfold applyCleanup; split <;> rfl

theorem applyCleanup_sent (old new : MCState) :
    (applyCleanup old new).sent = new.sent := by
  unfold applyCleanup; split <;> rfl

theorem applyCleanup_keysPressed (old new : MCState) :
    (applyCleanup old new).keysPressed = new.keysPressed := by
  unfold applyCleanup; split <;> rfl

/-! ## C6 -/

/-- C6: the flight-plan panel renders the infeasible-mission ("Mission
Impossible") alert exactly when `estimated_battery_pct` exceeds 100; at or
below 100 no infeasible-mission warning is shown (the 80–100 band shows only
the distinct "High Battery Usage" advisory). -/
theorem c6_infeasible_warning_iff_over_100 (pct : ℚ) :
    batteryWarning pct = BatteryWarning.impossible ↔ 100 < pct := by
  unfold batteryWarning
  split_ifs with h1 h2 <;> simp_all

/-! ## C7 -/

/-- C7: a malformed (non-JSON-parseable) websocket message is dropped
without any state change: the handler's catch block leaves the whole
component state — telemetry, video frame, mission status, and the open
connection — exactly as it was. -/
theorem c7_malformed_message_dropped (s : MCState) :
    stepMC s (Ev.recv InMsg.malformed) = s := by
  simp [stepMC, rawStepMC, handleMessage, applyCleanup]

/-! ## C10 -/

/-- C10: `calculateMetrics` computes `netArea` as the base area minus the
summed obstacle and no-fly areas, clamped below at zero, so the net-area
metric is never negative — for every distance function, pin pair, obstacle
list and no-fly list. -/
theorem c10_netArea_clamped_nonneg (dist : LatLngQ → LatLngQ → ℚ) (s : FarmState) :
    (calculateMetrics dist s).netArea =
      max ((calculateMetrics dist s).baseArea
        - s.obstacles.foldl (fun sum obs => sum + obs.area) 0
        - s.noFlyZones.foldl (fun sum nfz => sum + nfz.area) 0) 0 ∧
    0 ≤ (calculateMetrics dist s).netArea := by
  exact ⟨rfl, le_max_right _ _⟩

/-! ## C2 -/

/-- C2 counterexample: even with a loaded field map and a generated plan,
the `execute_mission` message has only `action` and `mission_data` at top
level — `mission_id` and `waypoints` are not top-level fields, contrary to
the claim. -/
theorem c2_counterexample :
    jsonObjKeys (executeMissionMsg 0 (some (Json.str "field_1"))
        (some (Json.arr [])) 200) = ["action", "mission_data"] ∧
    "mission_id" ∉ jsonObjKeys (executeMissionMsg 0 (some (Json.str "field_1"))
        (some (Json.arr [])) 200) ∧
    "waypoints" ∉ jsonObjKeys (executeMissionMsg 0 (some (Json.str "field_1"))
        (some (Json.arr [])) 200) := by
  refine ⟨rfl, ?_, ?_⟩ <;> decide

/-- C2 (amended): every `execute_mission` message has exactly the top-level
fields `action` and `mission_data`, and `mission_data` carries `mission_id`,
`field_id`, `waypoints` and `altitude` (the `field_id` / `waypoints` keys
being present whenever the field map id and plan waypoints are defined). -/
theorem c2_mission_fields_nested (nowMs : Int) (fieldId waypoints : Option Json)
    (altitudeCm : Int) :
    jsonObjKeys (executeMissionMsg nowMs fieldId waypoints altitudeCm)
      = ["action", "mission_data"] ∧
    jsonLookup (executeMissionMsg nowMs fieldId waypoints altitudeCm) "action"
      = some (Json.str "execute_mission") ∧
    (∀ vf vw, fieldId = some vf → waypoints = some vw →
      (jsonLookup (executeMissionMsg nowMs fieldId waypoints altitudeCm)
          "mission_data").map jsonObjKeys
        = some ["mission_id", "field_id", "waypoints", "altitude"]) := by
  refine ⟨rfl, rfl, ?_⟩
  rintro vf vw rfl rfl
  rfl

/-- Witness for C2 (amended) at a concrete message. -/
theorem c2_mission_fields_nested_witness :
    jsonObjKeys (executeMissionMsg 5 (some (Json.str "farm_1"))
        (some (Json.arr [])) 200) = ["action", "mission_data"] ∧
    (jsonLookup (executeMissionMsg 5 (some (Json.str "farm_1"))
        (some (Json.arr [])) 200) "mission_data").map jsonObjKeys
      = some ["mission_id", "field_id", "waypoints", "altitude"] :=
  ⟨(c2_mission_fields_nested 5 (some (Json.str "farm_1")) (some (Json.arr [])) 200).1,
   (c2_mission_fields_nested 5 (some (Json.str "farm_1")) (some (Json.arr [])) 200).2.2
     (Json.str "farm_1") (Json.arr []) rfl rfl⟩

/-! ## C1 -/

/-- C1 counterexample: after the connect click, a trace containing no
incoming message at all still ends with `droneConnected = true` — the flag
is set by the 2-second timer alone, refuting "only upon a successful
handshake acknowledgment, never merely by the passage of time". -/
theorem c1_counterexample :
    (runMC initMC c1Trace).droneConnected = true ∧
    c1Trace.all (fun e => !isRecvEv e) = true := by
  exact ⟨rfl, rfl⟩

theorem rawStepMC_droneConnected (s : MCState) (e : Ev) :
    (rawStepMC s e).droneConnected = true ↔
      (s.droneConnected = true ∨
        (e = Ev.connectTimerFire ∧ s.connectTimerPending = true)) := by
  cases e with
  | recv m =>
      simp only [rawStepMC]
      split
      · rw [(handleMessage_preserves s m).1]; simp
      · simp
  | connectTimerFire =>
      simp only [rawStepMC]
      split_ifs with h <;> simp [h]
  | keyDown k =>
      simp only [rawStepMC]
      split
      · split <;> simp
      · simp
  | keyUp k =>
      simp only [rawStepMC]
      split
      · split <;> simp
      · simp
  | tick =>
      simp only [rawStepMC, sendManualStep]
      split
      · split
        · simp
        · split <;> simp
      · simp
  | _ =>
      simp only [rawStepMC]
      first
        | (split <;> simp)
        | simp

/-- C1 (amended): after the connect request, `droneConnected` becomes true
exactly when the unconditionally scheduled 2-second timer fires — it is
independent of any handshake acknowledgment, and incoming channel messages
never change it. -/
theorem c1_droneConnected_set_by_timer_only (s : MCState) (e : Ev) :
    ((stepMC s e).droneConnected = true ↔
      (s.droneConnected = true ∨
        (e = Ev.connectTimerFire ∧ s.connectTimerPending = true))) ∧
    (∀ m, (stepMC s (Ev.recv m)).droneConnected = s.droneConnected) := by
  constructor
  · rw [stepMC, applyCleanup_droneConnected]
    exact rawStepMC_droneConnected s e
  · intro m
    rw [stepMC, applyCleanup_droneConnected, rawStepMC]
    split
    · exact (handleMessage_preserves s m).1
    · rfl

/-! ## C3 -/

/-- C3 counterexample: with `w` and `s` both held, a single sampling tick
pushes two commands (`move_forward` and `move_back`) to the link — the held
keys are not coalesced into a single outstanding command per interval. -/
theorem c3_counterexample :
    (runMC initMC (c3Trace ++ [Ev.tick])).sent
      = (runMC initMC c3Trace).sent
        ++ [⟨"move_forward", some 20, none⟩, ⟨"move_back", some 20, none⟩] ∧
    (runMC initMC c3Trace).sent = [⟨"connect", none, none⟩] := by
  exact ⟨rfl, rfl⟩

theorem filter_map_as_appends (keys : List String) (tbl : List (String × Cmd)) :
    (tbl.filter (fun kc => keys.contains kc.1)).map Prod.snd
      = tbl.foldr (fun kc acc => (if keys.contains kc.1 then [kc.2] else []) ++ acc) [] := by
  induction tbl with
  | nil => rfl
  | cons kc rest ih =>
      rw [List.foldr_cons, List.filter_cons]
      split <;> simp_all

theorem manualCommands_eq_filter (keys : List String) :
    manualCommands keys
      = (manualKeyTable.filter (fun kc => keys.contains kc.1)).map Prod.snd := by
  rw [filter_map_as_appends]
  simp only [manualKeyTable, List.foldr_cons, List.foldr_nil, List.append_nil]
  unfold manualCommands
  simp only [List.append_assoc]

/-- C3 (amended): commands are sampled on the fixed interval, never sent by
key events themselves — `keydown`/`keyup` push nothing, and each tick with a
live interval (with the socket open and the drone connected) appends the
command list derived from the held keys.  That list is *not* coalesced: it
contains one command per currently held mapped key. -/
theorem c3_interval_sends_one_command_per_key (s : MCState) (k : String) :
    (stepMC s (Ev.keyDown k)).sent = s.sent ∧
    (stepMC s (Ev.keyUp k)).sent = s.sent ∧
    (stepMC s Ev.tick).sent = s.sent ++
      (if s.intervalScheduled && (s.wsOpen && s.droneConnected)
       then manualCommands s.keysPressed else []) ∧
    manualCommands s.keysPressed
      = (manualKeyTable.filter (fun kc => s.keysPressed.contains kc.1)).map Prod.snd := by
  refine ⟨?_, ?_, ?_, manualCommands_eq_filter s.keysPressed⟩
  · rw [stepMC, applyCleanup_sent, rawStepMC]
    split
    · split <;> rfl
    · rfl
  · rw [stepMC, applyCleanup_sent, rawStepMC]
    split
    · split <;> rfl
    · rfl
  · rw [stepMC, applyCleanup_sent, rawStepMC]
    cases hs : s.intervalScheduled with
    | false => simp [hs]
    | true =>
        cases hw : s.wsOpen <;> cases hd : s.droneConnected <;>
          simp [sendManualStep, hs, hw, hd]
        split <;> rfl

/-! ## C4 -/

theorem applyCleanup_scheduled_false (old new : MCState)
    (h : new.intervalScheduled = false) :
    (applyCleanup old new).intervalScheduled = false := by
  unfold applyCleanup; split
  · rfl
  · exact h

theorem filter_append_nonMotion (l : List Cmd) (c : Cmd)
    (h : isMotionCmd c = false) :
    (l ++ [c]).filter isMotionCmd = l.filter isMotionCmd := by
  simp [List.filter_append, List.filter_cons, h]

theorem invMC_init : InvMC initMC := by
  intro h
  simp [initMC] at h

theorem invMC_step (s : MCState) (e : Ev) (h : InvMC s) : InvMC (stepMC s e) := by
  rw [stepMC]
  unfold applyCleanup
  split
  case isTrue hcl =>
      intro hsch
      simp at hsch
  case isFalse hcl =>
    intro hsch
    cases e with
    | wsOpened => exact h hsch
    | wsClosed => exact h hsch
    | planGenerated => exact h hsch
    | recv m =>
        have hp := handleMessage_preserves s m
        simp only [rawStepMC] at hsch ⊢
        by_cases hws : s.wsOpen = true
        · rw [if_pos hws] at hsch ⊢
          rw [hp.2.2.1] at hsch
          rw [hp.2.1, hp.1, hp.2.2.2.1]
          exact h hsch
        · rw [if_neg hws] at hsch ⊢
          exact h hsch
    | clickConnect =>
        simp only [rawStepMC] at hsch ⊢
        by_cases hws : s.wsOpen = true
        · rw [if_pos hws] at hsch ⊢; exact h hsch
        · rw [if_neg hws] at hsch ⊢; exact h hsch
    | clickStartStream =>
        simp only [rawStepMC] at hsch ⊢
        by_cases hws : s.wsOpen = true
        · rw [if_pos hws] at hsch ⊢; exact h hsch
        · rw [if_neg hws] at hsch ⊢; exact h hsch
    | clickTakeoff =>
        simp only [rawStepMC] at hsch ⊢
        by_cases hws : s.wsOpen = true
        · rw [if_pos hws] at hsch ⊢; exact h hsch
        · rw [if_neg hws] at hsch ⊢; exact h hsch
    | clickExecuteMission =>
        simp only [rawStepMC] at hsch ⊢
        by_cases hb : (s.wsOpen && s.hasFlightPlan) = true
        · rw [if_pos hb] at hsch ⊢; exact h hsch
        · rw [if_neg hb] at hsch ⊢; exact h hsch
    | connectTimerFire =>
        simp only [rawStepMC] at hsch ⊢
        by_cases hpd : s.connectTimerPending = true
        · rw [if_pos hpd] at hsch ⊢
          exact ⟨(h hsch).1, rfl, (h hsch).2.2⟩
        · rw [if_neg hpd] at hsch ⊢
          exact h hsch
    | clickEmergencyStop =>
        simp only [rawStepMC] at hsch ⊢
        by_cases hws : s.wsOpen = true
        · rw [if_pos hws] at hsch ⊢
          obtain ⟨h1, h2, h3⟩ := h hsch
          refine absurd ?_ hcl
          simp only [rawStepMC, mcActive]
          rw [if_pos hws]
          simp [h1, h2]
        · rw [if_neg hws] at hsch ⊢
          exact h hsch
    | toggleManualMode =>
        simp only [rawStepMC] at hsch ⊢
        by_cases hd : s.droneConnected = true
        · rw [if_pos hd] at hsch ⊢
          obtain ⟨h1, h2, h3⟩ := h hsch
          refine absurd ?_ hcl
          simp only [rawStepMC, mcActive]
          rw [if_pos hd]
          simp [h1, h2]
        · rw [if_neg hd] at hsch ⊢
          exact h hsch
    | keyDown k =>
        simp only [rawStepMC] at hsch ⊢
        by_cases ha : mcActive s = true
        · rw [if_pos ha] at hsch ⊢
          rw [mcActive, Bool.and_eq_true] at ha
          by_cases hr : (!s.intervalRefSet) = true
          · rw [if_pos hr] at hsch ⊢
            exact ⟨ha.1, ha.2, rfl⟩
          · rw [if_neg hr] at hsch ⊢
            exact ⟨ha.1, ha.2, (h hsch).2.2⟩
        · rw [if_neg ha] at hsch ⊢
          exact h hsch
    | keyUp k =>
        simp only [rawStepMC] at hsch ⊢
        by_cases ha : mcActive s = true
        · rw [if_pos ha] at hsch ⊢
          by_cases hclr :
              ((s.keysPressed.erase (lowerKey k)).isEmpty && s.intervalRefSet) = true
          · rw [if_pos hclr] at hsch
            simp at hsch
          · rw [if_neg hclr] at hsch ⊢
            exact h hsch
        · rw [if_neg ha] at hsch ⊢
          exact h hsch
    | tick =>
        simp only [rawStepMC] at hsch ⊢
        by_cases hs2 : s.intervalScheduled = true
        · obtain ⟨h1, h2, h3⟩ := h hs2
          rw [if_pos hs2] at hsch ⊢
          unfold sendManualStep at hsch ⊢
          by_cases hw : s.wsOpen = true
          · rw [if_neg (show ¬((!s.wsOpen || !s.droneConnected) = true) by
              simp [hw, h2])] at hsch ⊢
            by_cases hsp : (s.keysPressed.contains " ") = true
            · refine absurd ?_ hcl
              simp only [rawStepMC, mcActive]
              rw [if_pos hs2]
              unfold sendManualStep
              rw [if_neg (show ¬((!s.wsOpen || !s.droneConnected) = true) by
                simp [hw, h2]), if_pos hsp]
              simp [h1, h2]
            · rw [if_neg hsp] at hsch ⊢
              exact h hsch
          · rw [if_pos (show (!s.wsOpen || !s.droneConnected) = true by
              simp [hw])] at hsch ⊢
            exact h hsch
        · rw [if_neg hs2] at hsch ⊢
          exact h hsch

theorem sched_off_step (s : MCState) (e : Ev) (hs : s.intervalScheduled = false)
    (hk : isKeyDownEv e = false) :
    (stepMC s e).intervalScheduled = false ∧
    motionSent (stepMC s e) = motionSent s := by
  have hraw : (rawStepMC s e).intervalScheduled = false ∧
      (rawStepMC s e).sent.filter isMotionCmd = s.sent.filter isMotionCmd := by
    cases e with
    | wsOpened => exact ⟨hs, rfl⟩
    | wsClosed => exact ⟨hs, rfl⟩
    | planGenerated => exact ⟨hs, rfl⟩
    | recv m =>
        have hp := handleMessage_preserves s m
        rw [rawStepMC]
        split
        · exact ⟨hp.2.2.1.trans hs, by rw [hp.2.2.2.2.2.1]⟩
        · exact ⟨hs, rfl⟩
    | clickConnect =>
        rw [rawStepMC]; split
        · exact ⟨hs, filter_append_nonMotion _ _ (by decide)⟩
        · exact ⟨hs, rfl⟩
    | clickStartStream =>
        rw [rawStepMC]; split
        · exact ⟨hs, filter_append_nonMotion _ _ (by decide)⟩
        · exact ⟨hs, rfl⟩
    | clickTakeoff =>
        rw [rawStepMC]; split
        · exact ⟨hs, filter_append_nonMotion _ _ (by decide)⟩
        · exact ⟨hs, rfl⟩
    | clickExecuteMission =>
        rw [rawStepMC]; split
        · exact ⟨hs, filter_append_nonMotion _ _ (by decide)⟩
        · exact ⟨hs, rfl⟩
    | clickEmergencyStop =>
        rw [rawStepMC]; split
        · exact ⟨hs, filter_append_nonMotion _ _ (by decide)⟩
        · exact ⟨hs, rfl⟩
    | connectTimerFire =>
        rw [rawStepMC]; split
        · exact ⟨hs, rfl⟩
        · exact ⟨hs, rfl⟩
    | toggleManualMode =>
        rw [rawStepMC]; split
        · exact ⟨hs, rfl⟩
        · exact ⟨hs, rfl⟩
    | keyDown k => simp [isKeyDownEv] at hk
    | keyUp k =>
        rw [rawStepMC]
        split
        · split
          · exact ⟨rfl, rfl⟩
          · exact ⟨hs, rfl⟩
        · exact ⟨hs, rfl⟩
    | tick =>
        rw [rawStepMC, if_neg (by simp [hs])]
        exact ⟨hs, rfl⟩
  rw [stepMC]
  refine ⟨applyCleanup_scheduled_false _ _ hraw.1, ?_⟩
  unfold motionSent
  rw [applyCleanup_sent]
  exact hraw.2

theorem sched_off_run (s : MCState) (evs : List Ev)
    (hs : s.intervalScheduled = false)
    (hk : evs.all (fun e => !isKeyDownEv e) = true) :
    (runMC s evs).intervalScheduled = false ∧
    motionSent (runMC s evs) = motionSent s := by
  induction evs generalizing s with
  | nil => exact ⟨hs, rfl⟩
  | cons e rest ih =>
      rw [List.all_cons, Bool.and_eq_true] at hk
      have h1 := sched_off_step s e hs (by simpa using hk.1)
      have h2 := ih (stepMC s e) h1.1 hk.2
      exact ⟨h2.1, h2.2.trans h1.2⟩

/-- C4: once all held keys are released (the `keyup` that empties
`keysPressed`) or an emergency stop is issued over an open socket, the
sampling interval is cleared in that very step, and no later processing that
does not press a new key ever sends another movement/rotation command — in
particular no queued command is left behind.  The hypothesis `InvMC` is the
keyboard-effect invariant, which holds of every state the component can
reach (`invMC_init`, `invMC_step`). -/
theorem c4_cancellation_stops_motion_commands (s : MCState) (k : String)
    (evs : List Ev) (hInv : InvMC s)
    (hk : evs.all (fun e => !isKeyDownEv e) = true) :
    ((stepMC s (Ev.keyUp k)).keysPressed = [] →
      (stepMC s (Ev.keyUp k)).intervalScheduled = false ∧
      motionSent (runMC (stepMC s (Ev.keyUp k)) evs) = motionSent s) ∧
    (s.wsOpen = true →
      (stepMC s Ev.clickEmergencyStop).intervalScheduled = false ∧
      motionSent (runMC (stepMC s Ev.clickEmergencyStop) evs) = motionSent s) := by
  constructor
  · intro hempty
    have hsent : (stepMC s (Ev.keyUp k)).sent = s.sent := by
      rw [stepMC, applyCleanup_sent, rawStepMC]
      split
      · split <;> rfl
      · rfl
    have hsched : (stepMC s (Ev.keyUp k)).intervalScheduled = false := by
      rw [stepMC]
      apply applyCleanup_scheduled_false
      rw [stepMC, applyCleanup_keysPressed] at hempty
      rw [rawStepMC] at hempty ⊢
      by_cases ha : mcActive s = true
      · rw [if_pos ha] at hempty ⊢
        by_cases hclr :
            ((s.keysPressed.erase (lowerKey k)).isEmpty && s.intervalRefSet) = true
        · rw [if_pos hclr]
        · rw [if_neg hclr] at hempty ⊢
          dsimp only at hempty
          have hrf : s.intervalRefSet = false := by
            by_contra hrf
            rw [Bool.not_eq_false] at hrf
            exact hclr (by rw [hempty]; simp [hrf])
          by_cases hsch : s.intervalScheduled = true
          · exact absurd (hInv hsch).2.2 (by simp [hrf])
          · simpa using hsch
      · rw [if_neg ha] at hempty ⊢
        by_cases hsch : s.intervalScheduled = true
        · exact absurd (by simp [mcActive, (hInv hsch).1, (hInv hsch).2.1]) ha
        · simpa using hsch
    have hrun := sched_off_run (stepMC s (Ev.keyUp k)) evs hsched hk
    refine ⟨hsched, hrun.2.trans ?_⟩
    unfold motionSent
    rw [hsent]
  · intro hws
    have hsched : (stepMC s Ev.clickEmergencyStop).intervalScheduled = false := by
      rw [stepMC]
      unfold applyCleanup
      split
      · rfl
      case isFalse hcl =>
        rw [rawStepMC, if_pos hws] at hcl ⊢
        by_cases hsch : s.intervalScheduled = true
        · obtain ⟨h1, h2, h3⟩ := hInv hsch
          simp [mcActive, h1, h2] at hcl
        · simpa using hsch
    have hsent : motionSent (stepMC s Ev.clickEmergencyStop) = motionSent s := by
      unfold motionSent
      rw [stepMC, applyCleanup_sent, rawStepMC, if_pos hws]
      exact filter_append_nonMotion _ _ (by decide)
    have hrun := sched_off_run (stepMC s Ev.clickEmergencyStop) evs hsched hk
    exact ⟨hsched, hrun.2.trans hsent⟩

/-- Witness for C4 at a concrete manual-control state with `w` held. -/
theorem c4_cancellation_witness :
    ((stepMC c4State (Ev.keyUp "w")).intervalScheduled = false ∧
      motionSent (runMC (stepMC c4State (Ev.keyUp "w")) [Ev.tick, Ev.tick])
        = motionSent c4State) ∧
    ((stepMC c4State Ev.clickEmergencyStop).intervalScheduled = false ∧
      motionSent (runMC (stepMC c4State Ev.clickEmergencyStop) [Ev.tick, Ev.tick])
        = motionSent c4State) :=
  ⟨(c4_cancellation_stops_motion_commands c4State "w" [Ev.tick, Ev.tick]
      (by decide) (by decide)).1 (by decide),
   (c4_cancellation_stops_motion_commands c4State "w" [Ev.tick, Ev.tick]
      (by decide) (by decide)).2 (by decide)⟩

/-! ## FarmMapping invariant lemmas -/

theorem rectBoundary_in_bounds (a b st p : LatLngQ)
    (hst : BoundsContains a b st) (hp : BoundsContains a b p) :
    ∀ q ∈ rectBoundary st p, BoundsContains a b q := by
  obtain ⟨h1, h2, h3, h4⟩ := hst
  obtain ⟨g1, g2, g3, g4⟩ := hp
  simp only [southWest, northEast] at h1 h2 h3 h4 g1 g2 g3 g4
  have lat1 : min a.lat b.lat ≤ min st.lat p.lat := le_min h1 g1
  have lat2 : min st.lat p.lat ≤ max a.lat b.lat := le_trans (min_le_left _ _) h2
  have lat3 : min a.lat b.lat ≤ max st.lat p.lat := le_trans h1 (le_max_left _ _)
  have lat4 : max st.lat p.lat ≤ max a.lat b.lat := max_le h2 g2
  have lng1 : min a.lng b.lng ≤ min st.lng p.lng := le_min h3 g3
  have lng2 : min st.lng p.lng ≤ max a.lng b.lng := le_trans (min_le_left _ _) h4
  have lng3 : min a.lng b.lng ≤ max st.lng p.lng := le_trans h3 (le_max_left _ _)
  have lng4 : max st.lng p.lng ≤ max a.lng b.lng := max_le h4 g4
  intro q hq
  simp only [rectBoundary, southWest, northEast, List.mem_cons,
    List.not_mem_nil, or_false] at hq
  rcases hq with rfl | rfl | rfl | rfl | rfl
  · exact ⟨lat1, lat2, lng1, lng2⟩
  · exact ⟨lat1, lat2, lng3, lng4⟩
  · exact ⟨lat3, lat4, lng3, lng4⟩
  · exact ⟨lat3, lat4, lng1, lng2⟩
  · exact ⟨lat1, lat2, lng1, lng2⟩

theorem finv_init (dist : LatLngQ → LatLngQ → ℚ) : FInv dist (initFM dist) := by
  refine ⟨⟨?_, ?_, ?_, ?_, ?_, ?_, ?_⟩, rfl⟩ <;> simp [initFM, OptInBounds]

theorem finv_step (dist : LatLngQ → LatLngQ → ℚ) (s : FarmState) (e : FEv)
    (h : FInv dist s) : FInv dist (stepFM dist s e) := by
  obtain ⟨⟨hobs, hnfz, hos, hns, hbase, hclo, hclz⟩, hmet⟩ := h
  refine ⟨?_, rfl⟩
  show FInvCore (rawStepFM dist s e)
  unfold FInvCore
  cases e with
  | click p =>
      simp only [rawStepFM, clickFM]
      cases hm : s.mode with
      | base =>
          dsimp only
          obtain ⟨hO, hN, hOS, hNS⟩ := hbase hm
          by_cases hnp : s.nextPin = PinSel.a
          · rw [if_pos hnp]
            exact ⟨by simp [hO], by simp [hN], by simp [hOS, OptInBounds],
              by simp [hNS, OptInBounds], fun _ => ⟨hO, hN, hOS, hNS⟩,
              by simp [hO], by simp [hN]⟩
          · rw [if_neg hnp]
            exact ⟨by simp [hO], by simp [hN], by simp [hOS, OptInBounds],
              by simp [hNS, OptInBounds], fun _ => ⟨hO, hN, hOS, hNS⟩,
              by simp [hO], by simp [hN]⟩
      | obstacle =>
          dsimp only
          by_cases hc : BoundsContains s.pinA s.pinB p
          · rw [if_pos hc]
            cases hst : s.obstacleStart with
            | none =>
                dsimp only
                exact ⟨hobs, hnfz, hc, hns,
                  fun hb => absurd (show FMode.obstacle = FMode.base from hb)
                    (by decide), hclo, hclz⟩
            | some st =>
                dsimp only
                have hstb : BoundsContains s.pinA s.pinB st := by
                  rw [hst] at hos; exact hos
                by_cases harea : rectArea dist st p > 1
                · rw [if_pos harea]
                  refine ⟨?_, hnfz, trivial, hns,
                    fun hb => absurd (show FMode.obstacle = FMode.base from hb)
                      (by decide), ?_, hclz⟩
                  · intro o ho
                    rcases List.mem_append.mp ho with ho | ho
                    · exact hobs o ho
                    · rw [List.mem_singleton] at ho
                      subst ho
                      exact rectBoundary_in_bounds _ _ _ _ hstb hc
                  · intro o ho
                    rcases List.mem_append.mp ho with ho | ho
                    · exact hclo o ho
                    · rw [List.mem_singleton] at ho
                      subst ho
                      rfl
                · rw [if_neg harea]
                  exact ⟨hobs, hnfz, trivial, hns,
                    fun hb => absurd (show FMode.obstacle = FMode.base from hb)
                      (by decide), hclo, hclz⟩
          · rw [if_neg hc]
            exact ⟨hobs, hnfz, hos, hns, hbase, hclo, hclz⟩
      | nofly =>
          dsimp only
          by_cases hc : BoundsContains s.pinA s.pinB p
          · rw [if_pos hc]
            cases hst : s.noFlyStart with
            | none =>
                dsimp only
                exact ⟨hobs, hnfz, hos, hc,
                  fun hb => absurd (show FMode.nofly = FMode.base from hb)
                    (by decide), hclo, hclz⟩
            | some st =>
                dsimp only
                have hstb : BoundsContains s.pinA s.pinB st := by
                  rw [hst] at hns; exact hns
                by_cases harea : rectArea dist st p > 1
                · rw [if_pos harea]
                  refine ⟨hobs, ?_, hos, trivial,
                    fun hb => absurd (show FMode.nofly = FMode.base from hb)
                      (by decide), hclo, ?_⟩
                  · intro z hz
                    rcases List.mem_append.mp hz with hz | hz
                    · exact hnfz z hz
                    · rw [List.mem_singleton] at hz
                      subst hz
                      exact rectBoundary_in_bounds _ _ _ _ hstb hc
                  · intro z hz
                    rcases List.mem_append.mp hz with hz | hz
                    · exact hclz z hz
                    · rw [List.mem_singleton] at hz
                      subst hz
                      rfl
                · rw [if_neg harea]
                  exact ⟨hobs, hnfz, hos, trivial,
                    fun hb => absurd (show FMode.nofly = FMode.base from hb)
                      (by decide), hclo, hclz⟩
          · rw [if_neg hc]
            exact ⟨hobs, hnfz, hos, hns, hbase, hclo, hclz⟩
  | dragPinA p =>
      simp only [rawStepFM]
      by_cases hmb : s.mode = FMode.base
      · rw [if_pos hmb]
        obtain ⟨hO, hN, hOS, hNS⟩ := hbase hmb
        exact ⟨by simp [hO], by simp [hN], by simp [hOS, OptInBounds],
          by simp [hNS, OptInBounds], fun _ => ⟨hO, hN, hOS, hNS⟩,
          by simp [hO], by simp [hN]⟩
      · rw [if_neg hmb]
        exact ⟨hobs, hnfz, hos, hns, hbase, hclo, hclz⟩
  | dragPinB p =>
      simp only [rawStepFM]
      by_cases hmb : s.mode = FMode.base
      · rw [if_pos hmb]
        obtain ⟨hO, hN, hOS, hNS⟩ := hbase hmb
        exact ⟨by simp [hO], by simp [hN], by simp [hOS, OptInBounds],
          by simp [hNS, OptInBounds], fun _ => ⟨hO, hN, hOS, hNS⟩,
          by simp [hO], by simp [hN]⟩
      · rw [if_neg hmb]
        exact ⟨hobs, hnfz, hos, hns, hbase, hclo, hclz⟩
  | lockBoundary =>
      simp only [rawStepFM]
      by_cases hmb : s.mode = FMode.base
      · rw [if_pos hmb]
        exact ⟨hobs, hnfz, hos, hns,
          fun hb => absurd (show FMode.obstacle = FMode.base from hb) (by decide),
          hclo, hclz⟩
      · rw [if_neg hmb]
        exact ⟨hobs, hnfz, hos, hns, hbase, hclo, hclz⟩
  | selectObstacleMode =>
      simp only [rawStepFM]
      by_cases hmb : s.mode ≠ FMode.base
      · rw [if_pos hmb]
        exact ⟨hobs, hnfz, hos, hns,
          fun hb => absurd (show FMode.obstacle = FMode.base from hb) (by decide),
          hclo, hclz⟩
      · rw [if_neg hmb]
        exact ⟨hobs, hnfz, hos, hns, hbase, hclo, hclz⟩
  | selectNoflyMode =>
      simp only [rawStepFM]
      by_cases hmb : s.mode ≠ FMode.base
      · rw [if_pos hmb]
        exact ⟨hobs, hnfz, hos, hns,
          fun hb => absurd (show FMode.nofly = FMode.base from hb) (by decide),
          hclo, hclz⟩
      · rw [if_neg hmb]
        exact ⟨hobs, hnfz, hos, hns, hbase, hclo, hclz⟩
  | restartMapping =>
      simp only [rawStepFM]
      by_cases hmb : s.mode ≠ FMode.base
      · rw [if_pos hmb]
        exact ⟨by simp, by simp, trivial, trivial, fun _ => ⟨rfl, rfl, rfl, rfl⟩,
          by simp, by simp⟩
      · rw [if_neg hmb]
        exact ⟨hobs, hnfz, hos, hns, hbase, hclo, hclz⟩
  | resetPins =>
      simp only [rawStepFM]
      by_cases hmb : s.mode = FMode.base
      · rw [if_pos hmb]
        obtain ⟨hO, hN, hOS, hNS⟩ := hbase hmb
        exact ⟨by simp [hO], by simp [hN], by simp [hOS, OptInBounds],
          by simp [hNS, OptInBounds], fun _ => ⟨hO, hN, hOS, hNS⟩,
          by simp [hO], by simp [hN]⟩
      · rw [if_neg hmb]
        exact ⟨hobs, hnfz, hos, hns, hbase, hclo, hclz⟩
  | removeObstacle i =>
      simp only [rawStepFM]
      refine ⟨?_, hnfz, hos, hns, ?_, ?_, hclz⟩
      · exact fun o ho => hobs o (List.mem_of_mem_filter ho)
      · exact fun hm => ⟨by simp [(hbase hm).1], (hbase hm).2.1, (hbase hm).2.2⟩
      · exact fun o ho => hclo o (List.mem_of_mem_filter ho)
  | removeNoFly i =>
      simp only [rawStepFM]
      refine ⟨hobs, ?_, hos, hns, ?_, hclo, ?_⟩
      · exact fun z hz => hnfz z (List.mem_of_mem_filter hz)
      · exact fun hm => ⟨(hbase hm).1, by simp [(hbase hm).2.1], (hbase hm).2.2⟩
      · exact fun z hz => hclz z (List.mem_of_mem_filter hz)

theorem finv_run (dist : LatLngQ → LatLngQ → ℚ) (s : FarmState) (evs : List FEv)
    (h : FInv dist s) : FInv dist (runFM dist s evs) := by
  induction evs generalizing s with
  | nil => exact h
  | cons e rest ih => exact ih _ (finv_step dist s e h)

theorem finv_reachable (dist : LatLngQ → LatLngQ → ℚ) (s : FarmState)
    (h : ReachableFM dist s) : FInv dist s := by
  obtain ⟨evs, rfl⟩ := h
  exact finv_run dist (initFM dist) evs (finv_init dist)

/-! ## C8 -/

/-- C8: completing an obstacle or no-fly rectangle whose computed area is at
most 1 m² silently discards it (the list is unchanged), while any candidate
with area strictly greater than 1 m² is appended to the list. -/
theorem c8_small_regions_discarded (dist : LatLngQ → LatLngQ → ℚ)
    (s : FarmState) (st p : LatLngQ) :
    (s.mode = FMode.obstacle → s.obstacleStart = some st →
      BoundsContains s.pinA s.pinB p →
      ((rectArea dist st p ≤ 1 →
          (stepFM dist s (FEv.click p)).obstacles = s.obstacles) ∧
       (1 < rectArea dist st p →
          (stepFM dist s (FEv.click p)).obstacles
            = s.obstacles ++ [⟨s.nextId, rectBoundary st p, rectArea dist st p⟩]))) ∧
    (s.mode = FMode.nofly → s.noFlyStart = some st →
      BoundsContains s.pinA s.pinB p →
      ((rectArea dist st p ≤ 1 →
          (stepFM dist s (FEv.click p)).noFlyZones = s.noFlyZones) ∧
       (1 < rectArea dist st p →
          (stepFM dist s (FEv.click p)).noFlyZones
            = s.noFlyZones ++ [⟨s.nextId, rectBoundary st p, rectArea dist st p,
                some "Safety restriction"⟩]))) := by
  constructor
  · intro hm hst hc
    constructor
    · intro hle
      simp only [stepFM, rawStepFM, clickFM, hm]
      rw [if_pos hc, hst]
      dsimp only
      rw [if_neg (not_lt.mpr hle)]
    · intro hgt
      simp only [stepFM, rawStepFM, clickFM, hm]
      rw [if_pos hc, hst]
      dsimp only
      rw [if_pos hgt]
  · intro hm hst hc
    constructor
    · intro hle
      simp only [stepFM, rawStepFM, clickFM, hm]
      rw [if_pos hc, hst]
      dsimp only
      rw [if_neg (not_lt.mpr hle)]
    · intro hgt
      simp only [stepFM, rawStepFM, clickFM, hm]
      rw [if_pos hc, hst]
      dsimp only
      rw [if_pos hgt]

/-- Witness for C8: a large obstacle is appended; a zero-area no-fly
candidate is discarded. -/
theorem c8_small_regions_discarded_witness :
    ((stepFM taxiDist c8Base (FEv.click ⟨3, 3⟩)).obstacles
       = c8Base.obstacles ++ [⟨c8Base.nextId, rectBoundary ⟨1, 1⟩ ⟨3, 3⟩,
           rectArea taxiDist ⟨1, 1⟩ ⟨3, 3⟩⟩]) ∧
    ((stepFM taxiDist c8NoflyBase (FEv.click ⟨1, 1⟩)).noFlyZones
       = c8NoflyBase.noFlyZones) :=
  ⟨((c8_small_regions_discarded taxiDist c8Base ⟨1, 1⟩ ⟨3, 3⟩).1 rfl rfl
      (by decide)).2 (by with_unfolding_all decide),
   ((c8_small_regions_discarded taxiDist c8NoflyBase ⟨1, 1⟩ ⟨1, 1⟩).2 rfl rfl
      (by decide)).1 (by with_unfolding_all decide)⟩

/-! ## C9 -/

/-- C9: in obstacle/no-fly mode a click outside the rectangle spanned by the
two pins is rejected with no state change at all, and consequently every
point of every stored obstacle and no-fly boundary (in particular both
defining corners) lies inside the pin rectangle, for every reachable state
of the page. -/
theorem c9_regions_inside_boundary (dist : LatLngQ → LatLngQ → ℚ)
    (s : FarmState) (hs : ReachableFM dist s) :
    (∀ p, s.mode ≠ FMode.base → ¬ BoundsContains s.pinA s.pinB p →
        stepFM dist s (FEv.click p) = s) ∧
    (∀ o ∈ s.obstacles, ∀ q ∈ o.boundary, BoundsContains s.pinA s.pinB q) ∧
    (∀ z ∈ s.noFlyZones, ∀ q ∈ z.boundary, BoundsContains s.pinA s.pinB q) := by
  obtain ⟨⟨hobs, hnfz, hos, hns, hbase, hclo, hclz⟩, hmet⟩ := finv_reachable dist s hs
  refine ⟨?_, hobs, hnfz⟩
  intro p hm hc
  have hraw : rawStepFM dist s (FEv.click p) = s := by
    simp only [rawStepFM, clickFM]
    cases hmm : s.mode with
    | base => exact absurd hmm hm
    | obstacle => dsimp only; rw [if_neg hc]
    | nofly => dsimp only; rw [if_neg hc]
  show { rawStepFM dist s (FEv.click p) with
      metrics := calculateMetrics dist (rawStepFM dist s (FEv.click p)) } = s
  rw [hraw, ← hmet]

/-- Witness for C9: the reachable state with one captured obstacle rejects
an outside click unchanged, and its stored region lies inside the pins. -/
theorem c9_regions_inside_boundary_witness :
    stepFM taxiDist c9State (FEv.click ⟨0, 0⟩) = c9State ∧
    (∀ o ∈ c9State.obstacles, ∀ q ∈ o.boundary,
       BoundsContains c9State.pinA c9State.pinB q) :=
  ⟨(c9_regions_inside_boundary taxiDist c9State ⟨c9Events, rfl⟩).1 ⟨0, 0⟩
      (by with_unfolding_all decide) (by with_unfolding_all decide),
   (c9_regions_inside_boundary taxiDist c9State ⟨c9Events, rfl⟩).2.1⟩

/-! ## C5 -/

/-- C5: the exported field map is expressed in meters relative to the
boundary's southwest corner: the exported main boundary starts and ends at
`[0,0]` (closed, first point repeated last), the southwest corner itself
projects to `[0,0]`, `reference_point` is the southwest corner, every
obstacle and no-fly coordinate is `latLngToMeters` of the stored point with
the southwest corner as origin, and every exported obstacle / no-fly polygon
of a reachable state is closed. -/
theorem c5_export_meters_from_southwest (pi : ℚ) (cosQ : ℚ → ℚ)
    (dist : LatLngQ → LatLngQ → ℚ) (s : FarmState) (fieldId : String)
    (hs : ReachableFM dist s) :
    (exportJSONData pi cosQ s fieldId).boundary.head? = some (0, 0) ∧
    (exportJSONData pi cosQ s fieldId).boundary.getLast? = some (0, 0) ∧
    latLngToMeters pi cosQ (southWest s.pinA s.pinB) (southWest s.pinA s.pinB)
      = (0, 0) ∧
    (exportJSONData pi cosQ s fieldId).refLat
      = round6 (southWest s.pinA s.pinB).lat ∧
    (exportJSONData pi cosQ s fieldId).refLon
      = round6 (southWest s.pinA s.pinB).lng ∧
    (exportJSONData pi cosQ s fieldId).obstacles
      = s.obstacles.map (fun obs => ⟨"obstacle",
          obs.boundary.map (fun q =>
            latLngToMeters pi cosQ q (southWest s.pinA s.pinB)), none⟩) ∧
    (exportJSONData pi cosQ s fieldId).noFlyZones
      = s.noFlyZones.map (fun nfz => ⟨"no_fly_zone",
          nfz.boundary.map (fun q =>
            latLngToMeters pi cosQ q (southWest s.pinA s.pinB)),
          some (reasonOrDefault nfz.reason)⟩) ∧
    (∀ r ∈ (exportJSONData pi cosQ s fieldId).obstacles,
       r.boundary.head? = r.boundary.getLast?) ∧
    (∀ r ∈ (exportJSONData pi cosQ s fieldId).noFlyZones,
       r.boundary.head? = r.boundary.getLast?) := by
  obtain ⟨⟨hobs, hnfz, hos, hns, hbase, hclo, hclz⟩, hmet⟩ := finv_reachable dist s hs
  have hzero : latLngToMeters pi cosQ (southWest s.pinA s.pinB)
      (southWest s.pinA s.pinB) = (0, 0) := by
    unfold latLngToMeters round2
    simp
  refine ⟨rfl, rfl, hzero, rfl, rfl, rfl, rfl, ?_, ?_⟩
  · intro r hr
    have hr2 : r ∈ s.obstacles.map (fun obs => (⟨"obstacle",
        obs.boundary.map (fun q =>
          latLngToMeters pi cosQ q (southWest s.pinA s.pinB)),
        none⟩ : RegionExport)) := hr
    obtain ⟨o, ho, rfl⟩ := List.mem_map.mp hr2
    show (o.boundary.map _).head? = (o.boundary.map _).getLast?
    rw [List.head?_map, List.getLast?_map, hclo o ho]
  · intro r hr
    have hr2 : r ∈ s.noFlyZones.map (fun nfz => (⟨"no_fly_zone",
        nfz.boundary.map (fun q =>
          latLngToMeters pi cosQ q (southWest s.pinA s.pinB)),
        some (reasonOrDefault nfz.reason)⟩ : RegionExport)) := hr
    obtain ⟨z, hz, rfl⟩ := List.mem_map.mp hr2
    show (z.boundary.map _).head? = (z.boundary.map _).getLast?
    rw [List.head?_map, List.getLast?_map, hclz z hz]

/-- Witness for C5 at a concrete reachable state and concrete `pi`/`cos`. -/
theorem c5_export_meters_from_southwest_witness :
    (exportJSONData 3 (fun x => x) c9State "farm_w").boundary.head?
      = some (0, 0) ∧
    (exportJSONData 3 (fun x => x) c9State "farm_w").boundary.getLast?
      = some (0, 0) ∧
    latLngToMeters 3 (fun x => x) (southWest c9State.pinA c9State.pinB)
      (southWest c9State.pinA c9State.pinB) = (0, 0) ∧
    (∀ r ∈ (exportJSONData 3 (fun x => x) c9State "farm_w").obstacles,
       r.boundary.head? = r.boundary.getLast?) :=
  ⟨(c5_export_meters_from_southwest 3 (fun x => x) taxiDist c9State "farm_w"
      ⟨c9Events, rfl⟩).1,
   (c5_export_meters_from_southwest 3 (fun x => x) taxiDist c9State "farm_w"
      ⟨c9Events, rfl⟩).2.1,
   (c5_export_meters_from_southwest 3 (fun x => x) taxiDist c9State "farm_w"
      ⟨c9Events, rfl⟩).2.2.1,
   (c5_export_meters_from_southwest 3 (fun x => x) taxiDist c9State "farm_w"
      ⟨c9Events, rfl⟩).2.2.2.2.2.2.2.1⟩

end Cropter
